import Mathlib

/-!
High Tech CPU Heater.

A shallow embedding of `high_tech_cpu_heater.c`: the two CPUID probes
(`has_CPU_AVX2_instructions`, `getCPUNumOfLogicalCores`), the AVX2 hot loop
(`hot_processing`), the thread fan-out (`span_hot_threads`) and `main`.

* A C `int` is an `Int`; a 32-bit register pattern is a `Nat`, read into an `int`
  by `toInt32` (two's complement) and written back by `toReg32`.
* `>>` on a signed `int` is the arithmetic shift GCC emits, `Int.shiftRight`;
  `&` is `Int.land`.
* A `__m256i` is the 256-bit value of the register, a `Nat`; byte lane `j` is
  bits `8j+7 .. 8j`.
* The processor (CPUID) and the thread library (whether `thrd_create` succeeds)
  are parameters of the functions that use them.
-/

namespace CpuHeater

/-! ## Machine integers and CPUID -/

/-- The value of a C `int` that holds the 32-bit pattern `u` (two's complement). -/
def toInt32 (u : Nat) : Int :=
  if u % 2 ^ 32 < 2 ^ 31 then ((u % 2 ^ 32 : Nat) : Int)
  else ((u % 2 ^ 32 : Nat) : Int) - 2 ^ 32

/-- The 32-bit pattern a register receives from the C `int` value `x`. -/
def toReg32 (x : Int) : Nat := (x % 2 ^ 32).toNat

/-- The four registers a CPUID instruction writes. -/
structure CpuidRegs where
  eax : Nat
  ebx : Nat
  ecx : Nat
  edx : Nat
  deriving DecidableEq, Repr

/-- The processor as seen through CPUID: the registers it returns for the
input values of EAX and ECX. -/
abbrev Cpu := Nat → Nat → CpuidRegs

/-- The function `has_CPU_AVX2_instructions` of the source. -/
def has_CPU_AVX2_instructions (cpu : Cpu) : Bool :=
  let _func : Int := toInt32 0x80000007
  let func : Int := 0x7
  let ecx : Int := 0x0
  let regs := cpu (toReg32 func) (toReg32 ecx)
  let ebx : Int := toInt32 regs.ebx
  if Int.land (ebx >>> (5 : Nat)) 0x1 = 0x1 then true else false

/-- The function `getCPUNumOfLogicalCores` of the source. ECX is not an input
operand of its asm statement, so the processor sees whatever value `ecx_in`
that register happens to hold. -/
def getCPUNumOfLogicalCores (cpu : Cpu) (ecx_in : Nat) : Int :=
  let func : Int := 0x00000001
  let regs := cpu (toReg32 func) ecx_in
  let ebx : Int := toInt32 regs.ebx
  let logical_cores : Int := Int.land (ebx >>> (16 : Nat)) 0xff
  logical_cores

/-! ## The 256-bit vector unit -/

/-- Byte lane `j` of a 256-bit register value: its bits `8j+7 .. 8j`. -/
def lane (v : Nat) (j : Nat) : Nat := (v / 256 ^ j) % 256

/-- The register value whose byte lanes, lowest first, are the given bytes
(each truncated to 8 bits). -/
def pack : List Nat → Nat
  | [] => 0
  | x :: xs => x % 256 + 256 * pack xs

/-- The intrinsic `_mm256_set_epi8`: its arguments run from lane 31 down to lane 0. -/
def _mm256_set_epi8
    (e31 e30 e29 e28 e27 e26 e25 e24 e23 e22 e21 e20 e19 e18 e17 e16
     e15 e14 e13 e12 e11 e10 e9 e8 e7 e6 e5 e4 e3 e2 e1 e0 : Nat) : Nat :=
  pack [e0, e1, e2, e3, e4, e5, e6, e7, e8, e9, e10, e11, e12, e13, e14, e15,
        e16, e17, e18, e19, e20, e21, e22, e23, e24, e25, e26, e27, e28, e29, e30, e31]

/-- The intrinsic `_mm256_add_epi8` (VPADDB): for each of the 32 byte lanes,
`dst[8j+7:8j] := a[8j+7:8j] + b[8j+7:8j]`, truncated to 8 bits. -/
def _mm256_add_epi8 (a b : Nat) : Nat :=
  pack ((List.range 32).map fun j => (lane a j + lane b j) % 256)

/-! ## The hot loop -/

/-- A C `void *` argument; `none` is `NULL`. -/
abbrev VoidPtr := Option Nat

/-- The local `max_num` of `hot_processing`. -/
def max_num : Nat := 82000000002

/-- The body of the `for` loop of `hot_processing`: ten additions in sequence
of the vector `b` (there `int_vector_b`) into `result`. -/
def hot_body (b : Nat) (result : Nat) : Nat :=
  let result := _mm256_add_epi8 result b
  let result := _mm256_add_epi8 result b
  let result := _mm256_add_epi8 result b
  let result := _mm256_add_epi8 result b
  let result := _mm256_add_epi8 result b
  let result := _mm256_add_epi8 result b
  let result := _mm256_add_epi8 result b
  let result := _mm256_add_epi8 result b
  let result := _mm256_add_epi8 result b
  let result := _mm256_add_epi8 result b
  result

/-- The loop `for (unsigned long int i = 0; i < max_num; ++i) { ... }` of
`hot_processing`, adding the vector `b` (there `int_vector_b`), entered with
counter `i` and accumulator `result`; it gives the accumulator at loop exit
(the counter is local to the loop). The counter is 64 bits wide, so `++i` is
taken modulo `2 ^ 64`. -/
def hot_loop (b : Nat) (i : Nat) (result : Nat) : Nat :=
  if i < max_num then
    hot_loop b ((i + 1) % 2 ^ 64) (hot_body b result)
  else result
termination_by max_num - i
decreasing_by
  have hm : max_num = 82000000002 := rfl
  have h64 : (2 : Nat) ^ 64 = 18446744073709551616 := by norm_num
  rw [h64]
  omega

/-- The local `int_vector_a` of `hot_processing`: 32 numbers of 8 bits each. -/
def int_vector_a : Nat := _mm256_set_epi8 0 0 0 0 0 0 0 0 0 0
                                          0 0 0 0 0 0 0 0 0 0
                                          0 0 0 0 0 0 0 0 0 0
                                          0 0

/-- The local `int_vector_b` of `hot_processing`. -/
def int_vector_b : Nat := _mm256_set_epi8 1 1 1 1 1 1 1 1 1 1
                                          1 1 1 1 1 1 1 1 1 1
                                          1 1 1 1 1 1 1 1 1 1
                                          1 1

/-- The local `result` of `hot_processing` when its loop has ended; the
argument is not used. -/
def hot_processing_result (_arg : VoidPtr) : Nat :=
  let result := int_vector_a
  let result := hot_loop int_vector_b 0 result
  result

/-- The function `hot_processing` of the source: `ptr[0]` is the lowest byte
of `result` (x86 is little-endian), converted to `int`. -/
def hot_processing (arg : VoidPtr) : Int :=
  let result := hot_processing_result arg
  let ptr : Nat → Nat := lane result
  ((ptr 0 : Nat) : Int)

/-! ## Threads -/

/-- A worker thread: the slot of the array `thread` whose handle names it, and
what its start routine ends with, the final value of its private accumulator
and its return value. -/
structure Worker where
  slot : Nat
  accumulator : Nat
  ret : Int
  deriving DecidableEq, Repr

/-- A call into the thread library, as `span_hot_threads` makes it: a
`thrd_create` for a slot with its outcome, or a `thrd_join` of a slot. -/
inductive Call where
  | create (slot : Nat) (ok : Bool)
  | join (slot : Nat)
  deriving DecidableEq, Repr

/-- The state of one run of `span_hot_threads`: its two local arrays, the log
of workers that have entered their start routine, the log of workers whose
exit a join has waited for, and the library calls made so far. An array
element that is `none` has never been written. -/
structure SpanState where
  thread : Nat → Option Worker
  result : Nat → Option Int
  entered : List Nat
  exited : List Worker
  calls : List Call

/-- The state on entry to `span_hot_threads`, both arrays uninitialised. -/
def SpanState.init : SpanState :=
  { thread := fun _ => none, result := fun _ => none, entered := [], exited := [], calls := [] }

/-- What a start routine computes: the final accumulator and the return value
of `hot_processing` for the given argument. -/
def hot_worker (arg : VoidPtr) : Nat × Int :=
  (hot_processing_result arg, hot_processing arg)

/-- The call `thrd_create(&thread[i], func, arg)`, its return value dropped as
in the source. When the library succeeds (`ok`) a new worker enters `func arg`
and `thread[i]` names it; when it fails nothing is started and `thread[i]` is
left as it was. -/
def thrd_create (s : SpanState) (i : Nat) (ok : Bool)
    (func : VoidPtr → Nat × Int) (arg : VoidPtr) : SpanState :=
  if ok then
    { s with
      thread := Function.update s.thread i (some ⟨i, (func arg).1, (func arg).2⟩)
      entered := s.entered ++ [i]
      calls := s.calls ++ [Call.create i true] }
  else
    { s with calls := s.calls ++ [Call.create i false] }

/-- The call `thrd_join(thread[i], &result[i])`. For a handle that names a
worker it blocks until that worker has left its start routine and stores the
worker's return value in `result[i]`. Joining a handle that was never written
is undefined in C: the model gives `none`. -/
def thrd_join (s : SpanState) (i : Nat) : Option SpanState :=
  match s.thread i with
  | some w =>
    some { s with
      result := Function.update s.result i (some w.ret)
      exited := s.exited ++ [w]
      calls := s.calls ++ [Call.join i] }
  | none => none

/-- The first loop of `span_hot_threads`:
`for (int i = 0; i < num_threads; ++i) thrd_create(&thread[i], hot_processing, NULL);`
where `createOk i` tells whether the library can create the thread for slot `i`. -/
def span_create (createOk : Nat → Bool) (num_threads : Int) (s : SpanState) : SpanState :=
  (List.range num_threads.toNat).foldl
    (fun s i => thrd_create s i (createOk i) hot_worker none) s

/-- The second loop of `span_hot_threads`:
`for (int i = 0; i < num_threads; ++i) thrd_join(thread[i], &result[i]);`. -/
def span_join (num_threads : Int) (s : SpanState) : Option SpanState :=
  (List.range num_threads.toNat).foldlM (fun s i => thrd_join s i) s

/-- The function `span_hot_threads` of the source; the result is the state in
which it returns to its caller. -/
def span_hot_threads (createOk : Nat → Bool) (num_threads : Int) : Option SpanState :=
  span_join num_threads (span_create createOk num_threads SpanState.init)

/-! ## The program -/

/-- What a run of `main` does: the lines it prints, the argument it passes to
`span_hot_threads`, the state in which that call returns, and the exit code. -/
structure MainRun where
  stdout : List String
  num_threads : Int
  span : Option SpanState
  exit_code : Int

/-- The function `main` of the source. -/
def main (cpu : Cpu) (ecx_in : Nat) (createOk : Nat → Bool) : MainRun :=
  let line1 :=
    if has_CPU_AVX2_instructions cpu then "The CPU has AVX2 instructions!\n"
    else "The CPU doesn't have AVX2 instructions!\n"
  let logical_cores : Int := getCPUNumOfLogicalCores cpu ecx_in
  let line2 := "Logical cpus: " ++ toString logical_cores ++ " \n"
  let num_threads : Int := logical_cores
  { stdout := [line1, line2]
    num_threads := num_threads
    span := span_hot_threads createOk num_threads
    exit_code := 0 }

/-! ## Bit operations on `Int` -/

theorem ldiff_mask (m k : Nat) : Nat.ldiff (2 ^ k - 1) m = 2 ^ k - (m % 2 ^ k + 1) := by
  apply Nat.eq_of_testBit_eq
  intro i
  rw [Nat.testBit_ldiff, Nat.testBit_two_pow_sub_succ (Nat.mod_lt _ (by positivity)),
    Nat.testBit_two_pow_sub_one, Nat.testBit_mod_two_pow]
  by_cases h : i < k <;> simp [h]

theorem land_mask (x : Int) (k : Nat) : Int.land x (2 ^ k - 1) = x % 2 ^ k := by
  have hk : (2 : Int) ^ k - 1 = ((2 ^ k - 1 : Nat) : Int) := by
    have : 1 ≤ 2 ^ k := Nat.one_le_two_pow
    push_cast [Nat.cast_sub this]; rfl
  rw [hk]
  cases x with
  | ofNat n =>
    show ((n &&& (2 ^ k - 1) : Nat) : Int) = _
    rw [Nat.and_pow_two_sub_one_eq_mod]; norm_cast
  | negSucc m =>
    show ((Nat.ldiff (2 ^ k - 1) m : Nat) : Int) = _
    rw [ldiff_mask]
    have h1 : m % 2 ^ k < 2 ^ k := Nat.mod_lt _ (by positivity)
    have h3 : (m : Int)
        = (2 : Int) ^ k * ((m / 2 ^ k : Nat) : Int) + ((m % 2 ^ k : Nat) : Int) := by
      exact_mod_cast (Nat.div_add_mod m (2 ^ k)).symm
    have h4 : Int.negSucc m = ((2 ^ k - (m % 2 ^ k + 1) : Nat) : Int)
        + (2 : Int) ^ k * (-((m / 2 ^ k : Nat) : Int) - 1) := by
      rw [Int.negSucc_eq, Nat.cast_sub (by omega)]
      push_cast
      push_cast at h3
      linear_combination -h3
    have h5 : (((2 ^ k - (m % 2 ^ k + 1) : Nat)) : Int) < (2 : Int) ^ k := by
      exact_mod_cast (by omega : 2 ^ k - (m % 2 ^ k + 1) < 2 ^ k)
    rw [h4, Int.add_mul_emod_self_left, Int.emod_eq_of_lt (by positivity) h5]

theorem land_one (x : Int) : Int.land x 0x1 = x % 2 := by
  have := land_mask x 1
  norm_num at this
  exact this

theorem land_ff (x : Int) : Int.land x 0xff = x % 256 := by
  have := land_mask x 8
  norm_num at this
  exact this

theorem toReg32_seven : toReg32 0x7 = 7 := by decide
theorem toReg32_zero : toReg32 0x0 = 0 := by decide
theorem toReg32_one : toReg32 0x00000001 = 1 := by decide

theorem toInt32_bit5 (u : Nat) :
    (toInt32 u >>> (5 : Nat)) % 2 = (((u / 2 ^ 5) % 2 : Nat) : Int) := by
  rw [Int.shiftRight_eq_div_pow]
  unfold toInt32
  split <;> push_cast <;> omega

theorem toInt32_field (u : Nat) :
    (toInt32 u >>> (16 : Nat)) % 256 = (((u / 2 ^ 16) % 256 : Nat) : Int) := by
  rw [Int.shiftRight_eq_div_pow]
  unfold toInt32
  split <;> push_cast <;> omega

theorem has_CPU_AVX2_instructions_eq (cpu : Cpu) :
    has_CPU_AVX2_instructions cpu = decide ((cpu 7 0).ebx / 2 ^ 5 % 2 = 1) := by
  unfold has_CPU_AVX2_instructions
  simp only [toReg32_seven, toReg32_zero, land_one, toInt32_bit5]
  by_cases h : (cpu 7 0).ebx / 2 ^ 5 % 2 = 1
  · have h1 : ((((cpu 7 0).ebx / 2 ^ 5 % 2 : Nat) : Int) = 1) := by exact_mod_cast h
    rw [if_pos h1, decide_eq_true h]
  · have h1 : ¬ ((((cpu 7 0).ebx / 2 ^ 5 % 2 : Nat) : Int) = 1) := by exact_mod_cast h
    rw [if_neg h1, decide_eq_false h]

theorem getCPUNumOfLogicalCores_eq (cpu : Cpu) (ecx_in : Nat) :
    getCPUNumOfLogicalCores cpu ecx_in = (((cpu 1 ecx_in).ebx / 2 ^ 16 % 256 : Nat) : Int) := by
  unfold getCPUNumOfLogicalCores
  simp only [toReg32_one, land_ff, toInt32_field]


/-! ## Lanes -/

theorem lane_zero_eq (v : Nat) : lane v 0 = v % 256 := by
  simp [lane]

theorem lane_succ_eq (v j : Nat) : lane v (j + 1) = lane (v / 256) j := by
  unfold lane
  rw [pow_succ, Nat.mul_comm, Nat.div_div_eq_div_mul]

theorem lane_lt (v j : Nat) : lane v j < 256 := Nat.mod_lt _ (by norm_num)

theorem lane_pack (l : List Nat) (j : Nat) : lane (pack l) j = l.getD j 0 % 256 := by
  induction l generalizing j with
  | nil => simp [pack, lane]
  | cons x xs ih =>
    cases j with
    | zero =>
      rw [lane_zero_eq]
      simp only [pack, List.getD_cons_zero]
      omega
    | succ j =>
      rw [lane_succ_eq]
      have h : (x % 256 + 256 * pack xs) / 256 = pack xs := by omega
      simp only [pack, h, ih, List.getD_cons_succ]

theorem lane_add (a b j : Nat) (hj : j < 32) :
    lane (_mm256_add_epi8 a b) j = (lane a j + lane b j) % 256 := by
  unfold _mm256_add_epi8
  rw [lane_pack]
  have h : ((List.range 32).map fun j => (lane a j + lane b j) % 256).getD j 0
      = (lane a j + lane b j) % 256 := by
    rw [List.getD_eq_getElem?_getD, List.getElem?_map, List.getElem?_range hj]
    rfl
  rw [h, Nat.mod_mod]

theorem lane_add_high (a b j : Nat) (hj : 32 ≤ j) : lane (_mm256_add_epi8 a b) j = 0 := by
  unfold _mm256_add_epi8
  rw [lane_pack, List.getD_eq_default]
  simpa using hj

theorem lane_iterate_add (a b j : Nat) (hj : j < 32) (k : Nat) :
    lane ((fun r => _mm256_add_epi8 r b)^[k] a) j = (lane a j + k * lane b j) % 256 := by
  induction k with
  | zero =>
    have := lane_lt a j
    simp only [Function.iterate_zero, id_eq, Nat.zero_mul, Nat.add_zero]
    omega
  | succ k ih =>
    rw [Function.iterate_succ_apply', lane_add _ _ _ hj, ih, Nat.mod_add_mod, Nat.succ_mul,
      Nat.add_assoc]


/-! ## The hot loop -/

theorem max_num_lt : max_num < 2 ^ 64 := by
  unfold max_num; norm_num

theorem hot_body_eq (b r : Nat) : hot_body b r = (fun r => _mm256_add_epi8 r b)^[10] r := rfl

theorem hot_loop_exit (b r : Nat) : hot_loop b max_num r = r := by
  rw [hot_loop, if_neg (Nat.lt_irrefl _)]

theorem hot_loop_step (b i r : Nat) (h : i < max_num) :
    hot_loop b i r = hot_loop b (i + 1) (hot_body b r) := by
  have hlt := max_num_lt
  have hmod : (i + 1) % 2 ^ 64 = i + 1 := Nat.mod_eq_of_lt (by omega)
  rw [hot_loop, if_pos h, hmod]

theorem hot_loop_from (b : Nat) (k : Nat) : ∀ i r, i + k ≤ max_num →
    hot_loop b i r = hot_loop b (i + k) ((hot_body b)^[k] r) := by
  induction k with
  | zero =>
    intro i r _
    rfl
  | succ k ih =>
    intro i r h
    rw [hot_loop_step b i r (by omega), ih (i + 1) _ (by omega), Function.iterate_succ_apply,
      Nat.add_assoc, Nat.add_comm 1 k]

theorem hot_loop_eq (b r : Nat) :
    hot_loop b 0 r = (fun r => _mm256_add_epi8 r b)^[10 * max_num] r := by
  rw [hot_loop_from b max_num 0 r (by omega), Nat.zero_add, hot_loop_exit, Function.iterate_mul]
  rfl

theorem lane_int_vector_b (j : Nat) (hj : j < 32) : lane int_vector_b j = 1 := by
  unfold int_vector_b _mm256_set_epi8
  rw [lane_pack]
  interval_cases j <;> rfl

theorem lane_int_vector_a (j : Nat) : lane int_vector_a j = 0 := by
  have h : int_vector_a = 0 := by decide
  rw [h]
  simp [lane]

theorem lane_adds_from_zero (k j : Nat) (hj : j < 32) :
    lane ((fun r => _mm256_add_epi8 r int_vector_b)^[k] int_vector_a) j = k % 256 := by
  rw [lane_iterate_add _ _ _ hj, lane_int_vector_b j hj, lane_int_vector_a, Nat.zero_add,
    Nat.mul_one]

theorem hot_processing_result_eq (arg : VoidPtr) :
    hot_processing_result arg
      = (fun r => _mm256_add_epi8 r int_vector_b)^[10 * max_num] int_vector_a :=
  hot_loop_eq _ _

theorem hot_processing_result_lane (arg : VoidPtr) (j : Nat) (hj : j < 32) :
    lane (hot_processing_result arg) j = 20 := by
  rw [hot_processing_result_eq, lane_adds_from_zero _ _ hj]
  unfold max_num
  norm_num

theorem hot_processing_eq (arg : VoidPtr) : hot_processing arg = 20 := by
  have h := hot_processing_result_lane arg 0 (by norm_num)
  show ((lane (hot_processing_result arg) 0 : Nat) : Int) = 20
  rw [h]
  rfl


/-! ## Threads -/

theorem thrd_create_loop (createOk : Nat → Bool) (n : Nat) :
    (List.range n).foldl (fun s i => thrd_create s i (createOk i) hot_worker none) SpanState.init
      = { thread := fun i => if i < n ∧ createOk i = true then
            some ⟨i, hot_processing_result none, hot_processing none⟩ else none
          result := fun _ => none
          entered := (List.range n).filter createOk
          exited := []
          calls := (List.range n).map fun i => Call.create i (createOk i) } := by
  induction n with
  | zero => simp [SpanState.init]
  | succ n ih =>
    rw [List.range_succ, List.foldl_append, ih]
    simp only [List.foldl_cons, List.foldl_nil, thrd_create]
    cases h : createOk n
    · simp only [Bool.false_eq_true, ↓reduceIte, List.map_append, List.map_cons, List.map_nil,
        List.filter_append, List.filter_cons, List.filter_nil, h, List.append_nil]
      congr 1
      funext i
      by_cases hi : i = n
      · subst hi; simp [h]
      · have : i < n + 1 ↔ i < n := by omega
        simp [this]
    · simp only [↓reduceIte, List.map_append, List.map_cons, List.map_nil,
        List.filter_append, List.filter_cons, List.filter_nil, h]
      congr 1
      funext i
      by_cases hi : i = n
      · subst hi; simp [h, hot_worker]
      · have : i < n + 1 ↔ i < n := by omega
        simp [this, Function.update_noteq hi]


theorem thrd_join_loop (w : Nat → Worker) (n : Nat) (s : SpanState)
    (h : ∀ i, i < n → s.thread i = some (w i)) :
    (List.range n).foldlM (fun s i => thrd_join s i) s
      = some { thread := s.thread
               result := fun i => if i < n then some (w i).ret else s.result i
               entered := s.entered
               exited := s.exited ++ (List.range n).map w
               calls := s.calls ++ (List.range n).map Call.join } := by
  induction n with
  | zero => simp
  | succ n ih =>
    rw [List.range_succ, List.foldlM_append, ih (fun i hi => h i (by omega))]
    simp only [List.foldlM_cons, List.foldlM_nil, Option.some_bind, Option.bind_eq_bind, thrd_join,
      h n (by omega), List.map_append, List.map_cons, List.map_nil, List.append_assoc,
      Option.bind_some]
    congr 2
    funext i
    by_cases hi : i = n
    · subst hi; simp
    · have : i < n + 1 ↔ i < n := by omega
      simp [this, Function.update_noteq hi]

theorem span_hot_threads_ok (createOk : Nat → Bool) (num_threads : Int)
    (h : ∀ i, i < num_threads.toNat → createOk i = true) :
    span_hot_threads createOk num_threads
      = some { thread := fun i => if i < num_threads.toNat ∧ createOk i = true then
                 some ⟨i, hot_processing_result none, hot_processing none⟩ else none
               result := fun i => if i < num_threads.toNat then some (hot_processing none) else none
               entered := List.range num_threads.toNat
               exited := (List.range num_threads.toNat).map
                 fun i => ⟨i, hot_processing_result none, hot_processing none⟩
               calls := ((List.range num_threads.toNat).map fun i => Call.create i true)
                 ++ (List.range num_threads.toNat).map Call.join } := by
  unfold span_hot_threads span_join span_create
  rw [thrd_create_loop,
    thrd_join_loop (fun i => ⟨i, hot_processing_result none, hot_processing none⟩)]
  · have hf : (List.range num_threads.toNat).filter createOk = List.range num_threads.toNat := by
      rw [List.filter_eq_self]
      intro i hi
      exact h i (List.mem_range.mp hi)
    have hm : ((List.range num_threads.toNat).map fun i => Call.create i (createOk i))
        = (List.range num_threads.toNat).map fun i => Call.create i true := by
      apply List.map_congr_left
      intro i hi
      rw [h i (List.mem_range.mp hi)]
    simp only [hf, hm, List.nil_append]
  · intro i hi
    simp [hi, h i hi]


/-- A property that holds of every worker running `hot_processing(NULL)` is
kept, for all handles and all joined workers, by a `thrd_create` call. -/
theorem thrd_create_keeps (P : Worker → Prop) (s : SpanState) (i : Nat) (ok : Bool)
    (hP : ∀ k, P ⟨k, hot_processing_result none, hot_processing none⟩)
    (h : (∀ k w, s.thread k = some w → P w) ∧ ∀ w ∈ s.exited, P w) :
    (∀ k w, (thrd_create s i ok hot_worker none).thread k = some w → P w)
      ∧ ∀ w ∈ (thrd_create s i ok hot_worker none).exited, P w := by
  unfold thrd_create
  cases ok
  · exact h
  · refine ⟨?_, h.2⟩
    intro k w hk
    simp only [↓reduceIte] at hk
    by_cases hki : k = i
    · subst hki
      rw [Function.update_same] at hk
      cases hk
      exact hP k
    · rw [Function.update_noteq hki] at hk
      exact h.1 k w hk

theorem thrd_join_keeps (P : Worker → Prop) (s s' : SpanState) (i : Nat)
    (hs : thrd_join s i = some s')
    (h : (∀ k w, s.thread k = some w → P w) ∧ ∀ w ∈ s.exited, P w) :
    (∀ k w, s'.thread k = some w → P w) ∧ ∀ w ∈ s'.exited, P w := by
  unfold thrd_join at hs
  split at hs
  · rename_i w hw
    cases hs
    refine ⟨h.1, ?_⟩
    intro x hx
    rcases List.mem_append.mp hx with hx | hx
    · exact h.2 x hx
    · rw [List.mem_singleton] at hx
      subst hx
      exact h.1 i x hw
  · cases hs

theorem span_create_keeps (P : Worker → Prop) (createOk : Nat → Bool)
    (hP : ∀ k, P ⟨k, hot_processing_result none, hot_processing none⟩) (l : List Nat) :
    ∀ s : SpanState, ((∀ k w, s.thread k = some w → P w) ∧ ∀ w ∈ s.exited, P w) →
      (∀ k w, (l.foldl (fun s i => thrd_create s i (createOk i) hot_worker none) s).thread k
          = some w → P w)
        ∧ ∀ w ∈ (l.foldl (fun s i => thrd_create s i (createOk i) hot_worker none) s).exited,
            P w := by
  induction l with
  | nil => intro s h; exact h
  | cons i l ih =>
    intro s h
    rw [List.foldl_cons]
    exact ih _ (thrd_create_keeps P s i (createOk i) hP h)

theorem span_join_keeps (P : Worker → Prop) (l : List Nat) :
    ∀ s s' : SpanState, l.foldlM (fun s i => thrd_join s i) s = some s' →
      ((∀ k w, s.thread k = some w → P w) ∧ ∀ w ∈ s.exited, P w) →
      (∀ k w, s'.thread k = some w → P w) ∧ ∀ w ∈ s'.exited, P w := by
  induction l with
  | nil =>
    intro s s' hs h
    simp only [List.foldlM_nil, Option.pure_def, Option.some.injEq] at hs
    subst hs
    exact h
  | cons i l ih =>
    intro s s' hs h
    rw [List.foldlM_cons] at hs
    cases hj : thrd_join s i with
    | none => rw [hj] at hs; cases hs
    | some s1 =>
      rw [hj] at hs
      exact ih s1 s' hs (thrd_join_keeps P s s1 i hj h)

theorem span_hot_threads_keeps (P : Worker → Prop) (createOk : Nat → Bool) (num_threads : Int)
    (hP : ∀ k, P ⟨k, hot_processing_result none, hot_processing none⟩) (s : SpanState)
    (hs : span_hot_threads createOk num_threads = some s) :
    (∀ k w, s.thread k = some w → P w) ∧ ∀ w ∈ s.exited, P w := by
  unfold span_hot_threads span_join span_create at hs
  refine span_join_keeps P _ _ s hs (span_create_keeps P createOk hP _ _ ?_)
  refine ⟨?_, ?_⟩
  · intro k w hk
    cases hk
  · intro w hw
    cases hw


/-! ## Properties of the specification -/

/-- C1: after `k` applications of `_mm256_add_epi8` adding the all-ones vector
`int_vector_b` to the all-zero accumulator `int_vector_a`, every lane `j` in
`0..31` holds exactly `k mod 256`; and an addition of the all-ones vector to
any register `a` whose lane `i` holds 255 turns lane `i` into 0 while every
other lane `l` becomes `(lane l of a + 1) mod 256`, a function of that lane
alone: no carry crosses from one lane into another. -/
theorem C1_lane_wraparound (k j : Nat) (hj : j < 32) :
    lane ((fun r => _mm256_add_epi8 r int_vector_b)^[k] int_vector_a) j = k % 256
      ∧ ∀ a i, i < 32 → lane a i = 255 →
          lane (_mm256_add_epi8 a int_vector_b) i = 0
            ∧ ∀ l, l < 32 → l ≠ i →
                lane (_mm256_add_epi8 a int_vector_b) l = (lane a l + 1) % 256 := by
  refine ⟨lane_adds_from_zero k j hj, ?_⟩
  intro a i hi ha
  refine ⟨?_, ?_⟩
  · rw [lane_add _ _ _ hi, lane_int_vector_b i hi, ha]
  · intro l hl _
    rw [lane_add _ _ _ hl, lane_int_vector_b l hl]

/-- C1 at `k = 256`, lane 31: the lane has wrapped to 0, and the register
whose lane 0 holds 255 and whose other lanes hold 0 is taken to lane 0 = 0,
lane 1 = 1. -/
theorem C1_lane_wraparound_witness :
    lane ((fun r => _mm256_add_epi8 r int_vector_b)^[256] int_vector_a) 31 = 256 % 256
      ∧ lane (_mm256_add_epi8 255 int_vector_b) 0 = 0
      ∧ lane (_mm256_add_epi8 255 int_vector_b) 1 = (lane 255 1 + 1) % 256 :=
  ⟨(C1_lane_wraparound 256 31 (by decide)).1,
   ((C1_lane_wraparound 256 31 (by decide)).2 255 0 (by decide) (by decide)).1,
   ((C1_lane_wraparound 256 31 (by decide)).2 255 0 (by decide) (by decide)).2 1
     (by decide) (by decide)⟩

/-- C2: whatever the processor returns in EBX for the leaf-7 query, sign bit
set or not, `has_CPU_AVX2_instructions` returns `true` exactly when bit 5 of
EBX is set and `false` exactly when it is clear; being a total function into
`Bool` it has no failing branch. -/
theorem C2_avx2_iff_bit5 (cpu : Cpu) :
    (has_CPU_AVX2_instructions cpu = true ↔ (cpu 7 0).ebx / 2 ^ 5 % 2 = 1)
      ∧ (has_CPU_AVX2_instructions cpu = false ↔ (cpu 7 0).ebx / 2 ^ 5 % 2 = 0)
      ∧ has_CPU_AVX2_instructions cpu = Nat.testBit (cpu 7 0).ebx 5 := by
  rw [has_CPU_AVX2_instructions_eq, Nat.testBit_to_div_mod]
  refine ⟨by simp, ?_, rfl⟩
  rw [decide_eq_false_iff_not]
  omega

/-- C3: whatever the processor returns in EBX for the leaf-1 query, sign bit
set or not, `getCPUNumOfLogicalCores` returns the field EBX[23:16], that is
`floor(u / 2^16) mod 256` for `u` the unsigned value of EBX, an integer in
the range `0..255`. -/
theorem C3_logical_cores_field (cpu : Cpu) (ecx_in : Nat) :
    getCPUNumOfLogicalCores cpu ecx_in = (((cpu 1 ecx_in).ebx / 2 ^ 16 % 256 : Nat) : Int)
      ∧ 0 ≤ getCPUNumOfLogicalCores cpu ecx_in
      ∧ getCPUNumOfLogicalCores cpu ecx_in ≤ 255 := by
  rw [getCPUNumOfLogicalCores_eq]
  refine ⟨rfl, ?_, ?_⟩ <;> omega


/-- C4, refuted as stated: with one worker asked for and the thread library
failing to create it, the creation loop of `span_hot_threads` makes its one
`thrd_create` call, no worker enters `hot_processing`, and `thread[0]` is never
written: the number of workers created is 0, not 1. -/
theorem C4_failed_creation_no_worker :
    (span_create (fun _ => false) 1 SpanState.init).calls = [Call.create 0 false]
      ∧ (span_create (fun _ => false) 1 SpanState.init).entered = []
      ∧ ((span_create (fun _ => false) 1 SpanState.init).entered.length : Int) ≠ 1
      ∧ (span_create (fun _ => false) 1 SpanState.init).thread 0 = none := by
  unfold span_create
  rw [thrd_create_loop]
  exact ⟨by decide, by decide, by decide, by simp⟩

/-- C4, amended: for every worker count `N > 0`, when the thread library
creates each of the `N` threads asked for, `span_hot_threads N` returns, and
in the state in which it returns: exactly `N` workers have entered, one per
slot `0..N-1`, each named by its handle and running `hot_processing(NULL)`;
the library calls made are the `N` creations followed by the `N` joins, one
join per slot, so every created worker is joined exactly once; and every one
of the `N` workers has exited (entry count = exit count = `N`), its return
value stored in `result`. -/
theorem C4_worker_count_fidelity (createOk : Nat → Bool) (N : Int) (hN : 0 < N)
    (hok : ∀ i, i < N.toNat → createOk i = true) :
    ∃ s, span_hot_threads createOk N = some s
      ∧ s.entered = List.range N.toNat
      ∧ (s.entered.length : Int) = N
      ∧ (s.exited.length : Int) = N
      ∧ s.exited.map Worker.slot = List.range N.toNat
      ∧ (∀ i, i < N.toNat →
          s.thread i = some ⟨i, hot_processing_result none, hot_processing none⟩)
      ∧ (∀ w ∈ s.exited,
          w.accumulator = hot_processing_result none ∧ w.ret = hot_processing none)
      ∧ s.calls = ((List.range N.toNat).map fun i => Call.create i true)
          ++ (List.range N.toNat).map Call.join
      ∧ (∀ i, i < N.toNat → s.calls.count (Call.join i) = 1)
      ∧ (∀ i, i < N.toNat → s.calls.count (Call.create i true) = 1)
      ∧ (∀ i, i < N.toNat → s.result i = some (hot_processing none)) := by
  refine ⟨_, span_hot_threads_ok createOk N hok, rfl, ?_, ?_, ?_, ?_, ?_, rfl, ?_, ?_, ?_⟩
  · simp only [List.length_range]
    omega
  · simp only [List.length_map, List.length_range]
    omega
  · simp only [List.map_map]
    exact List.map_id _
  · intro i hi
    simp [hi, hok i hi]
  · intro w hw
    simp only [List.mem_map, List.mem_range] at hw
    obtain ⟨i, _, rfl⟩ := hw
    exact ⟨rfl, rfl⟩
  · intro i hi
    rw [List.count_append]
    have h1 : List.count (Call.join i) ((List.range N.toNat).map fun i => Call.create i true)
        = 0 := by
      rw [List.count_eq_zero]
      simp
    have h2 : List.count (Call.join i) ((List.range N.toNat).map Call.join) = 1 := by
      apply List.count_eq_one_of_mem
      · exact (List.nodup_range _).map (fun a b hab => by cases hab; rfl)
      · exact List.mem_map.mpr ⟨i, List.mem_range.mpr hi, rfl⟩
    rw [h1, h2]
  · intro i hi
    rw [List.count_append]
    have h1 : List.count (Call.create i true) ((List.range N.toNat).map Call.join) = 0 := by
      rw [List.count_eq_zero]
      simp
    have h2 : List.count (Call.create i true)
        ((List.range N.toNat).map fun i => Call.create i true) = 1 := by
      apply List.count_eq_one_of_mem
      · exact (List.nodup_range _).map (fun a b hab => by cases hab; rfl)
      · exact List.mem_map.mpr ⟨i, List.mem_range.mpr hi, rfl⟩
    rw [h1, h2]
  · intro i hi
    simp [hi]

/-- C4, amended, for the scenario of the specification: eight workers, every
creation succeeding. The call returns, with eight workers entered, each joined
once, and eight exited. -/
theorem C4_worker_count_fidelity_witness :
    ∃ s, span_hot_threads (fun _ => true) 8 = some s
      ∧ s.entered = List.range (8 : Int).toNat
      ∧ (s.entered.length : Int) = 8
      ∧ (s.exited.length : Int) = 8
      ∧ s.exited.map Worker.slot = List.range (8 : Int).toNat
      ∧ (∀ i, i < (8 : Int).toNat →
          s.thread i = some ⟨i, hot_processing_result none, hot_processing none⟩)
      ∧ (∀ w ∈ s.exited,
          w.accumulator = hot_processing_result none ∧ w.ret = hot_processing none)
      ∧ s.calls = ((List.range (8 : Int).toNat).map fun i => Call.create i true)
          ++ (List.range (8 : Int).toNat).map Call.join
      ∧ (∀ i, i < (8 : Int).toNat → s.calls.count (Call.join i) = 1)
      ∧ (∀ i, i < (8 : Int).toNat → s.calls.count (Call.create i true) = 1)
      ∧ (∀ i, i < (8 : Int).toNat → s.result i = some (hot_processing none)) :=
  C4_worker_count_fidelity (fun _ => true) 8 (by decide) (fun _ _ => rfl)

/-- C5, refuted as stated: with two workers asked for and the creation for
slot 0 failing, `span_hot_threads` does not stop at the failure. Its creation
loop goes on to call `thrd_create` for slot 1, and worker 1 is started and
runs, one worker where two were asked for. -/
theorem C5_failure_not_propagated :
    (span_create (fun i => i != 0) 2 SpanState.init).calls
        = [Call.create 0 false, Call.create 1 true]
      ∧ (span_create (fun i => i != 0) 2 SpanState.init).entered = [1]
      ∧ (span_create (fun i => i != 0) 2 SpanState.init).thread 1
          = some ⟨1, hot_processing_result none, hot_processing none⟩ := by
  unfold span_create
  rw [thrd_create_loop]
  exact ⟨by decide, by decide, by simp⟩

/-- C5, amended: `span_hot_threads` drops the result of `thrd_create`. Whatever
creations fail, its creation loop attempts all `N` of them in slot order, and
the workers started are exactly those whose creation succeeded; so when any
creation fails, fewer than `N` workers are started and run, and the joins
follow on that state without the failure having been reported. -/
theorem C5_creation_failure_ignored (createOk : Nat → Bool) (N : Int) :
    (span_create createOk N SpanState.init).calls
        = (List.range N.toNat).map (fun i => Call.create i (createOk i))
      ∧ (span_create createOk N SpanState.init).entered = (List.range N.toNat).filter createOk
      ∧ (∀ i, i < N.toNat → createOk i = true →
          (span_create createOk N SpanState.init).thread i
            = some ⟨i, hot_processing_result none, hot_processing none⟩)
      ∧ ((∃ i, i < N.toNat ∧ createOk i = false) →
          (span_create createOk N SpanState.init).entered.length < N.toNat)
      ∧ span_hot_threads createOk N = span_join N (span_create createOk N SpanState.init) := by
  unfold span_hot_threads span_create
  rw [thrd_create_loop]
  refine ⟨rfl, rfl, ?_, ?_, rfl⟩
  · intro i hi hc
    simp [hi, hc]
  · rintro ⟨i, hi, hc⟩
    have hlen := List.length_filter_le createOk (List.range N.toNat)
    rw [List.length_range] at hlen
    rcases Nat.lt_or_eq_of_le hlen with h | h
    · exact h
    · exfalso
      have hall : (List.range N.toNat).filter createOk = List.range N.toNat :=
        List.Sublist.eq_of_length (List.filter_sublist _) (by rw [h, List.length_range])
      rw [List.filter_eq_self] at hall
      have := hall i (List.mem_range.mpr hi)
      rw [hc] at this
      cases this

/-- C5, amended, with three workers asked for and the creation for slot 1
failing: two workers are started. -/
theorem C5_creation_failure_ignored_witness :
    (span_create (fun i => i != 1) 3 SpanState.init).entered.length < (3 : Int).toNat :=
  (C5_creation_failure_ignored (fun i => i != 1) 3).2.2.2.1 ⟨1, by decide, by decide⟩


/-- C6, refuted as stated: on a processor whose leaf-1 EBX has the field
EBX[23:16] equal to 0 (here EBX = 0x0100ffff),
`getCPUNumOfLogicalCores` returns 0 and `main` passes that 0 to
`span_hot_threads`: the worker count at the call is not greater than 0, and no
worker is created. -/
theorem C6_zero_count_passed_through :
    getCPUNumOfLogicalCores (fun _ _ => ⟨0, 0x0100ffff, 0, 0⟩) 0 = 0
      ∧ (main (fun _ _ => ⟨0, 0x0100ffff, 0, 0⟩) 0 (fun _ => true)).num_threads = 0
      ∧ ¬ 0 < (main (fun _ _ => ⟨0, 0x0100ffff, 0, 0⟩) 0 (fun _ => true)).num_threads
      ∧ (span_create (fun _ => true)
          (main (fun _ _ => ⟨0, 0x0100ffff, 0, 0⟩) 0 (fun _ => true)).num_threads
          SpanState.init).entered = [] := by
  have h : getCPUNumOfLogicalCores (fun _ _ => ⟨0, 0x0100ffff, 0, 0⟩) 0 = 0 := by
    rw [getCPUNumOfLogicalCores_eq]
    decide
  have hm : (main (fun _ _ => ⟨0, 0x0100ffff, 0, 0⟩) 0 (fun _ => true)).num_threads = 0 := h
  refine ⟨h, hm, ?_, ?_⟩
  · rw [hm]
    decide
  · rw [hm]
    decide

/-- C6, amended: `main` has no fallback. The worker count it passes to
`span_hot_threads` is the value `getCPUNumOfLogicalCores` returns, unchanged,
that is the field EBX[23:16] of the leaf-1 query, in `0..255`; it is greater
than 0 exactly when that field is not 0. -/
theorem C6_count_passed_unchanged (cpu : Cpu) (ecx_in : Nat) (createOk : Nat → Bool) :
    (main cpu ecx_in createOk).num_threads = getCPUNumOfLogicalCores cpu ecx_in
      ∧ (main cpu ecx_in createOk).span
          = span_hot_threads createOk (getCPUNumOfLogicalCores cpu ecx_in)
      ∧ (main cpu ecx_in createOk).num_threads
          = (((cpu 1 ecx_in).ebx / 2 ^ 16 % 256 : Nat) : Int)
      ∧ (0 < (main cpu ecx_in createOk).num_threads
          ↔ (cpu 1 ecx_in).ebx / 2 ^ 16 % 256 ≠ 0) := by
  have h : (main cpu ecx_in createOk).num_threads = getCPUNumOfLogicalCores cpu ecx_in := rfl
  refine ⟨h, rfl, ?_, ?_⟩
  · rw [h, getCPUNumOfLogicalCores_eq]
  · rw [h, getCPUNumOfLogicalCores_eq]
    omega


/-- C7: for all worker counts `N` and `M` and whatever the thread library
does, when `span_hot_threads N` and `span_hot_threads M` return, every worker
of the one run ends with the same 32 lane values and the same return value as
every worker of the other (each lane and the return value being 20); and what
a worker computes does not depend on the argument it is started with. The
worker's result is a function of nothing but the locals of `hot_processing`. -/
theorem C7_worker_independence (createOk createOk' : Nat → Bool) (N M : Int)
    (s s' : SpanState) (hs : span_hot_threads createOk N = some s)
    (hs' : span_hot_threads createOk' M = some s') :
    (∀ x ∈ s.exited, ∀ y ∈ s'.exited,
        (∀ j, j < 32 → lane x.accumulator j = lane y.accumulator j) ∧ x.ret = y.ret)
      ∧ (∀ i k x y, s.thread i = some x → s'.thread k = some y →
          x.accumulator = y.accumulator ∧ x.ret = y.ret)
      ∧ (∀ x ∈ s.exited, (∀ j, j < 32 → lane x.accumulator j = 20) ∧ x.ret = 20)
      ∧ (∀ arg arg' : VoidPtr,
          hot_processing_result arg = hot_processing_result arg'
            ∧ hot_processing arg = hot_processing arg') := by
  have h := span_hot_threads_keeps
    (fun w => w.accumulator = hot_processing_result none ∧ w.ret = hot_processing none)
    createOk N (fun _ => ⟨rfl, rfl⟩) s hs
  have h' := span_hot_threads_keeps
    (fun w => w.accumulator = hot_processing_result none ∧ w.ret = hot_processing none)
    createOk' M (fun _ => ⟨rfl, rfl⟩) s' hs'
  refine ⟨?_, ?_, ?_, ?_⟩
  · intro x hx y hy
    obtain ⟨hxa, hxr⟩ := h.2 x hx
    obtain ⟨hya, hyr⟩ := h'.2 y hy
    exact ⟨fun j _ => by rw [hxa, hya], by rw [hxr, hyr]⟩
  · intro i k x y hx hy
    obtain ⟨hxa, hxr⟩ := h.1 i x hx
    obtain ⟨hya, hyr⟩ := h'.1 k y hy
    exact ⟨by rw [hxa, hya], by rw [hxr, hyr]⟩
  · intro x hx
    obtain ⟨hxa, hxr⟩ := h.2 x hx
    refine ⟨fun j hj => ?_, ?_⟩
    · rw [hxa]
      exact hot_processing_result_lane none j hj
    · rw [hxr]
      exact hot_processing_eq none
  · intro arg arg'
    refine ⟨?_, ?_⟩
    · rw [hot_processing_result_eq arg, hot_processing_result_eq arg']
    · rw [hot_processing_eq arg, hot_processing_eq arg']

/-- C7 for the two runs the specification names, one worker and eight
workers: both runs return, and their workers end alike. -/
theorem C7_worker_independence_witness :
    ∃ s s', span_hot_threads (fun _ => true) 1 = some s
      ∧ span_hot_threads (fun _ => true) 8 = some s'
      ∧ s.exited.length = 1 ∧ s'.exited.length = 8
      ∧ ∀ x ∈ s.exited, ∀ y ∈ s'.exited,
          (∀ j, j < 32 → lane x.accumulator j = lane y.accumulator j) ∧ x.ret = y.ret :=
  ⟨_, _, span_hot_threads_ok (fun _ => true) 1 (fun _ _ => rfl),
    span_hot_threads_ok (fun _ => true) 8 (fun _ _ => rfl), by simp, by simp,
    (C7_worker_independence (fun _ => true) (fun _ => true) 1 8 _ _
      (span_hot_threads_ok (fun _ => true) 1 (fun _ _ => rfl))
      (span_hot_threads_ok (fun _ => true) 8 (fun _ _ => rfl))).1⟩


/-- C8: the hot loop is a total function (its termination is part of its
definition) and runs exactly 82,000,000,002 iterations. The bound is below
`2 ^ 64`; at every counter value `i` below the bound one iteration runs the
body once and continues with counter `i + 1`, never wrapped; at counter
82,000,000,002 the loop exits with the accumulator it has; so the loop started
at counter 0 applies the body 82,000,000,002 times. The body is ten additions
of the vector, which makes 820,000,000,020 additions in total. -/
theorem C8_loop_iterations :
    max_num = 82000000002
      ∧ 82000000002 < 2 ^ 64
      ∧ (∀ b r i, i < 82000000002 → hot_loop b i r = hot_loop b (i + 1) (hot_body b r))
      ∧ (∀ b r, hot_loop b 82000000002 r = r)
      ∧ (∀ b r k, k ≤ 82000000002 → hot_loop b 0 r = hot_loop b k ((hot_body b)^[k] r))
      ∧ (∀ b r, hot_loop b 0 r = (hot_body b)^[82000000002] r)
      ∧ (∀ b r, hot_body b r = (fun x => _mm256_add_epi8 x b)^[10] r)
      ∧ (∀ b r, hot_loop b 0 r = (fun x => _mm256_add_epi8 x b)^[820000000020] r) := by
  have hm : max_num = 82000000002 := rfl
  have h10 : 10 * max_num = 820000000020 := by rw [hm]
  refine ⟨hm, by norm_num, ?_, ?_, ?_, ?_, fun b r => hot_body_eq b r, ?_⟩
  · intro b r i hi
    exact hot_loop_step b i r (by rw [hm]; exact hi)
  · intro b r
    have h := hot_loop_exit b r
    rw [hm] at h
    exact h
  · intro b r k hk
    have h := hot_loop_from b k 0 r (by rw [hm]; omega)
    rw [Nat.zero_add] at h
    exact h
  · intro b r
    have h := hot_loop_from b max_num 0 r (by omega)
    rw [Nat.zero_add, hot_loop_exit] at h
    rw [hm] at h
    exact h
  · intro b r
    have h := hot_loop_eq b r
    rw [h10] at h
    exact h

/-- C8 at counter value 82,000,000,001, the last one below the bound: one more
iteration runs, and the counter becomes the bound. -/
theorem C8_loop_iterations_witness :
    hot_loop int_vector_b 82000000001 int_vector_a
      = hot_loop int_vector_b (82000000001 + 1) (hot_body int_vector_b int_vector_a) :=
  C8_loop_iterations.2.2.1 int_vector_b int_vector_a 82000000001 (by norm_num)

/-- C9: for every argument, `hot_processing` returns the byte at index 0 of
the final accumulator, converted to `int`; that value is not negative and
equals `(10 * 82000000002) mod 256 = 20`. -/
theorem C9_return_value (arg : VoidPtr) :
    hot_processing arg = ((lane (hot_processing_result arg) 0 : Nat) : Int)
      ∧ 0 ≤ hot_processing arg
      ∧ hot_processing arg = ((10 * 82000000002 % 256 : Nat) : Int)
      ∧ 10 * 82000000002 % 256 = 20
      ∧ hot_processing arg = 20 := by
  have h := hot_processing_eq arg
  refine ⟨rfl, ?_, ?_, by norm_num, h⟩
  · rw [h]
    decide
  · rw [h]
    norm_num

/-- C10: `has_CPU_AVX2_instructions` puts its question to the processor with
EAX = 0x7 and ECX = 0, and decides from bit 5 of the EBX of that answer alone.
What the processor would answer to any other query, leaf 0x80000007 included,
does not reach the result: a processor that agrees on the query (0x7, 0) and
differs anywhere else gives the same result. -/
theorem C10_leaf7_query (cpu : Cpu) :
    has_CPU_AVX2_instructions cpu = decide ((cpu 0x7 0).ebx / 2 ^ 5 % 2 = 1)
      ∧ (∀ regs : CpuidRegs,
          has_CPU_AVX2_instructions (fun a c => if a = 0x80000007 then regs else cpu a c)
            = has_CPU_AVX2_instructions cpu)
      ∧ (∀ other : Cpu,
          has_CPU_AVX2_instructions (fun a c => if a = 0x7 ∧ c = 0 then cpu 0x7 0 else other a c)
            = has_CPU_AVX2_instructions cpu) := by
  refine ⟨has_CPU_AVX2_instructions_eq cpu, ?_, ?_⟩
  · intro regs
    rw [has_CPU_AVX2_instructions_eq, has_CPU_AVX2_instructions_eq]
    simp
  · intro other
    rw [has_CPU_AVX2_instructions_eq, has_CPU_AVX2_instructions_eq]
    simp

end CpuHeater
